import Mathlib

/-!
Verification development for the pyncf repository (`pynetcdf.py`), a pure
Python reader for the NetCDF classic / 64-bit binary formats.

The Python source is shallowly embedded below.  Machine integers in the
source are non-negative header fields, modelled as `Nat`; decoded cell
values and attribute values (Python numbers) are modelled as `Rat`.
Python exceptions are modelled by the `PyErr` tags below: the source
raises bare `Exception`s, and each raise site is given the tag of the
error class the specification's taxonomy assigns to that site, except
that built-in Python exceptions (`KeyError`, `IndexError`, `TypeError`,
`NameError`, ...) keep their own tag because the distinction between
`LookupError` subclasses (`KeyError`, `IndexError`) and the rest is
itself under test.  Reading raw bytes from the data section of the file
and decoding them with `struct.unpack` is abstracted by an oracle
`fetch : Dtype → Nat → Rat` giving the decoded value found at a byte
offset; every claim under test concerns the offsets, the control flow
and the value transforms, not `struct` itself.
-/

/-- Element types of the classic NetCDF format (`dtypecodes`, lines 58-64). -/
inductive Dtype
  | NC_BYTE
  | NC_CHAR
  | NC_SHORT
  | NC_INT
  | NC_FLOAT
  | NC_DOUBLE
deriving DecidableEq

/-- The `dtype_sizes` table (lines 66-72) mapping each element type to the
byte size read_2ddata multiplies element offsets by.  Note the source
records 2 for `NC_CHAR`. -/
def dtype_sizes : Dtype → Nat
  | .NC_BYTE => 1
  | .NC_CHAR => 2
  | .NC_SHORT => 2
  | .NC_INT => 4
  | .NC_FLOAT => 4
  | .NC_DOUBLE => 8

/-- Bytes actually consumed by the per-cell value read of `read_2ddata`
(lines 529-540): `read_chars(1)` consumes 1 byte, `read_short(1)` 2,
`read_int(1)`/`read_float(1)` 4, `read_double(1)` 8; there is no branch
for `NC_BYTE`, so no read happens for it at all. -/
def value_read_bytes : Dtype → Option Nat
  | .NC_BYTE => none
  | .NC_CHAR => some 1
  | .NC_SHORT => some 2
  | .NC_INT => some 4
  | .NC_FLOAT => some 4
  | .NC_DOUBLE => some 8

/-- Python exception tags (see the module comment). -/
inductive PyErr
  | keyError
  | indexError
  | typeError
  | nameError
  | paddingError
  | grammarError
  | structError
  | assertionError
deriving DecidableEq

/-- Python's `LookupError` is the common superclass of exactly `KeyError`
and `IndexError` among the tags used here. -/
def is_lookup_error : PyErr → Bool
  | .keyError => true
  | .indexError => true
  | _ => false

/-- Lift an optional value, raising the given error when absent. -/
def orRaise : Option α → PyErr → Except PyErr α
  | some a, _ => .ok a
  | none, e => .error e

/-- A parsed dimension entry: `{name, dim_length}` (read_dim, lines 343-347). -/
structure Dim where
  name : String
  dim_length : Nat
deriving DecidableEq

/-- A parsed attribute entry (read_att, lines 376-382), restricted to the
scalar numeric attribute values the claims exercise. -/
structure Att where
  name : String
  values : Rat
deriving DecidableEq

/-- A parsed variable entry (read_var, lines 400-411). -/
structure Var where
  name : String
  dimids : List Nat
  vatt_list : List Att
  nc_type : Dtype
  vsize : Nat
  begin : Nat
deriving DecidableEq

/-- The parsed header (read_header, lines 299-308); the magic/format pair
and global attributes play no part in the claims under test. -/
structure Header where
  numrecs : Nat
  dim_list : List Dim
  var_list : List Var
deriving DecidableEq

/-- `get_varinfo` (lines 603-606): first variable with the requested name,
`None` if absent. -/
def get_varinfo (h : Header) (varname : String) : Option Var :=
  h.var_list.find? (fun vardict => vardict.name == varname)

/-- `get_varattr` (lines 608-611): value of the named attribute of the named
variable, absent if the attribute is missing.  (When the variable itself is
missing the source raises `TypeError`; the claims only query variables that
exist, so that case is folded into `none`.) -/
def get_varattr (h : Header) (varname attr : String) : Option Rat :=
  match get_varinfo h varname with
  | none => none
  | some varinfo => (varinfo.vatt_list.find? (fun attrdict => attrdict.name == attr)).map Att.values

/-- `get_diminfo` (lines 613-616): first dimension with the requested name. -/
def get_diminfo (h : Header) (dimname : String) : Option Dim :=
  h.dim_list.find? (fun dimdict => dimdict.name == dimname)

/-- Predicate of `get_coordinate_variables` (lines 643-655): exactly one
dim reference, whose dimension shares the variable's name.  (The source
indexes `dim_list[dimid]` directly and would raise `IndexError` on an
out-of-range reference; the headers in the theorems below are well formed,
so that case is folded into `false`.) -/
def is_coordinate_variable (h : Header) (v : Var) : Bool :=
  match v.dimids with
  | [dimid] =>
    match h.dim_list.get? dimid with
    | some diminfo => v.name == diminfo.name
    | none => false
  | _ => false

/-- `get_coordinate_variables` (lines 643-655). -/
def get_coordinate_variables (h : Header) : List Var :=
  h.var_list.filter (fun vardict => is_coordinate_variable h vardict)

/-- Predicate of `get_record_variables` (lines 628-641): the first referenced
dimension has length 0 and no coordinate variable carries this variable's
name.  (Same remark as above about out-of-range/empty `dimids`.) -/
def is_record_variable (h : Header) (v : Var) : Bool :=
  match v.dimids.head? with
  | none => false
  | some dimid =>
    match h.dim_list.get? dimid with
    | none => false
    | some diminfo =>
      diminfo.dim_length == 0 &&
        !(((get_coordinate_variables h).map Var.name).contains v.name)

/-- `get_record_variables` (lines 628-641). -/
def get_record_variables (h : Header) : List Var :=
  h.var_list.filter (fun vardict => is_record_variable h vardict)

/-- Effectful map over a list in the `Option` monad, mirroring a Python
list comprehension whose body may raise. -/
def optionMapM (f : α → Option β) : List α → Option (List β)
  | [] => some []
  | a :: l =>
    match f a with
    | none => none
    | some b =>
      match optionMapM f l with
      | none => none
      | some bs => some (b :: bs)

/-- The `dimidlengths` comprehension of `calc_product_vector` (line 569). -/
def dim_lengths_of (h : Header) (dimids : List Nat) : Option (List Nat) :=
  optionMapM (fun dimid => (h.dim_list.get? dimid).map Dim.dim_length) dimids

/-- The accumulator loop of `calc_product_vector` (lines 570-575): running
products of the traversed lengths, starting from `prevlength`. -/
def cumulProds (prevlength : Nat) : List Nat → List Nat
  | [] => []
  | dimidlength :: rest =>
    (prevlength * dimidlength) :: cumulProds (prevlength * dimidlength) rest

/-- `calc_product_vector` (lines 567-582): inclusive suffix products of the
variable's dimension lengths, with the first entry forced to 0 when the
first dimension is the unlimited one. -/
def calc_product_vector (h : Header) (varname : String) : Option (List Nat) :=
  match get_varinfo h varname with
  | none => none
  | some varinfo =>
    match dim_lengths_of h varinfo.dimids with
    | none => none
    | some dimidlengths =>
      let product_vector := (cumulProds 1 dimidlengths.reverse).reverse
      match varinfo.dimids.head? with
      | none => none
      | some dimid0 =>
        match h.dim_list.get? dimid0 with
        | none => none
        | some firstdim =>
          if firstdim.dim_length = 0 then some (product_vector.set 0 0)
          else some product_vector

/-- `padding_to_nearest_4byte_boundary` (lines 174-178): distance to the next
4-byte boundary, `None` when already aligned. -/
def padding_to_nearest_4byte_boundary (size : Nat) : Option Nat :=
  if size % 4 ≠ 0 then some (4 - size % 4) else none

/-- `round_nearest_4byte_boundary` (lines 168-172). -/
def round_nearest_4byte_boundary (size : Nat) : Nat :=
  match padding_to_nearest_4byte_boundary size with
  | some padding => size + padding
  | none => size

/-- `calc_vsize` (lines 590-597): the maximum of the product vector times the
element byte size, rounded up to a 4-byte boundary.  (`max` over a list the
source knows is non-empty is modelled by `foldl Nat.max 0`, which agrees
with Python's `max` on every non-empty list of naturals.) -/
def calc_vsize (h : Header) (varname : String) : Option Nat :=
  match calc_product_vector h varname with
  | none => none
  | some product_vector =>
    match get_varinfo h varname with
    | none => none
    | some varinfo =>
      some (round_nearest_4byte_boundary
        ((product_vector.foldl Nat.max 0) * dtype_sizes varinfo.nc_type))

/-- `calc_recsize` (lines 584-588): the 4-byte-rounded sum of `calc_vsize`
over all record variables. -/
def calc_recsize (h : Header) : Option Nat :=
  match optionMapM (fun varinfo => calc_vsize h varinfo.name) (get_record_variables h) with
  | none => none
  | some sizes => some (round_nearest_4byte_boundary sizes.sum)

/-- `check_alphanumeric` (lines 268-272) on a single byte of a Python 2
`str`: `str.isalnum` under the default C locale, i.e. ASCII letters and
digits. -/
def check_alphanumeric (c : Nat) : Bool :=
  (48 ≤ c && c ≤ 57) || (65 ≤ c && c ≤ 90) || (97 ≤ c && c ≤ 122)

/-- `check_id1` (lines 246-254): alphanumeric or underscore. -/
def check_id1 (c : Nat) : Bool :=
  check_alphanumeric c || c == 95

/-- The "special 1" characters `_.@+-` of `check_idn` (line 259). -/
def special1 : List Nat := [95, 46, 64, 43, 45]

/-- The "special 2" characters of `check_idn` (line 261): the bytes of the
Python literal `""" !"#$%&\()*,:;<=>?[\\]^'{|}~"""`, in order (note the
leading space, and that the backslash occurs twice). -/
def special2 : List Nat :=
  [32, 33, 34, 35, 36, 37, 38, 92, 40, 41, 42, 44, 58, 59, 60, 61, 62, 63,
   91, 92, 93, 94, 39, 123, 124, 125, 126]

/-- `check_idn` (lines 256-266). -/
def check_idn (c : Nat) : Bool :=
  check_alphanumeric c || special1.contains c || special2.contains c

/-- The name validation performed by `read_namestring` (lines 223-244):
non-empty, first byte passes `check_id1`, every further byte passes
`check_idn`. -/
def validate_name (name : List Nat) : Bool :=
  match name with
  | [] => false
  | c :: rest => check_id1 c && rest.all check_idn

/-- The padding loop of `read_size_leftover_padding_header` (lines 163-166):
consume `n` bytes from the stream, each of which must be the padding byte
`0x00` (a missing byte also fails the `read_tag` comparison). -/
def consume_padding : Nat → List Nat → Except PyErr (List Nat)
  | 0, stream => .ok stream
  | _ + 1, [] => .error .paddingError
  | n + 1, b :: stream =>
    if b = 0 then consume_padding n stream else .error .paddingError

/-- `read_size_leftover_padding_header` (lines 159-166), acting on the list
of bytes remaining in the file: when `size` is not a multiple of 4, consume
`4 - size % 4` padding bytes, failing unless each is zero. -/
def read_size_leftover_padding_header (size : Nat) (stream : List Nat) :
    Except PyErr (List Nat) :=
  if size % 4 = 0 then .ok stream
  else consume_padding (4 - size % 4) stream

/-- `read_namestring` (lines 223-244): take `nelems` bytes (a short stream
would fail `struct.unpack`), assert non-emptiness, validate the name
grammar, then consume alignment padding over the unpadded length.  Returns
the name bytes and the rest of the stream. -/
def read_namestring (nelems : Nat) (stream : List Nat) :
    Except PyErr (List Nat × List Nat) :=
  if nelems ≤ stream.length then
    let namestring := stream.take nelems
    if namestring.isEmpty then .error .assertionError
    else if validate_name namestring then
      match read_size_leftover_padding_header nelems (stream.drop nelems) with
      | .ok rest => .ok (namestring, rest)
      | .error e => .error e
    else .error .grammarError
  else .error .structError

/-- First-match lookup in the `extradims` keyword map of `read_2ddata`. -/
def lookupPairs : List (String × Nat) → String → Option Nat
  | [], _ => none
  | (k, v) :: rest, name => if k = name then some v else lookupPairs rest name

/-- The `indexdict` of `read_2ddata` (lines 499-500): `{xdim: x, ydim: y}`
updated with `extradims`, so `extradims` wins on a clash and `ydim` wins
over an equal `xdim`. -/
def indexdict (xdim ydim : String) (x y : Nat) (extradims : List (String × Nat))
    (name : String) : Option Nat :=
  match lookupPairs extradims name with
  | some v => some v
  | none => if name = ydim then some y else if name = xdim then some x else none

/-- The `coord` comprehension of `read_2ddata` (line 503): resolve each dim
reference to its dimension (`IndexError` when out of range) and look its
name up in the index dict (`KeyError` when missing). -/
def coord_of (h : Header) (dimids : List Nat) (idx : String → Option Nat) :
    Except PyErr (List Nat) :=
  match dimids with
  | [] => .ok []
  | dimid :: rest =>
    match h.dim_list.get? dimid with
    | none => .error .indexError
    | some diminfo =>
      match idx diminfo.name with
      | none => .error .keyError
      | some i =>
        match coord_of h rest idx with
        | .error e => .error e
        | .ok coords => .ok (i :: coords)

/-- The `sum(... for ... in zip(coord_mod, product_vector))` of line 510. -/
def dot (coord_mod product_vector : List Nat) : Nat :=
  (List.zip coord_mod product_vector).foldl (fun acc p => acc + p.1 * p.2) 0

/-- The per-call setup state of `read_2ddata` (lines 456-482). -/
structure Setup where
  varinfo : Var
  dtypesize : Nat
  recvar : Bool
  recsize : Nat
  pv : List Nat
deriving DecidableEq

/-- Lines 456-482 of `read_2ddata`: resolve the variable, decide the
`recvar` flag — note line 469 *overwrites* the record-variable test of
line 465 with `firstdim["name"] not in (xdim, ydim)` — compute the record
size when flagged, and shift the product vector (append 1, drop the head;
drop once more when flagged). -/
def read_setup (h : Header) (varname xdim ydim : String) : Except PyErr Setup :=
  match get_varinfo h varname with
  | none => .error .typeError
  | some varinfo =>
    let dtypesize := dtype_sizes varinfo.nc_type
    match varinfo.dimids.head? with
    | none => .error .indexError
    | some dimid0 =>
      match h.dim_list.get? dimid0 with
      | none => .error .indexError
      | some firstdim =>
        let recvar := !(firstdim.name == xdim || firstdim.name == ydim)
        match (if recvar then orRaise (calc_recsize h) .typeError else .ok 0) with
        | .error e => .error e
        | .ok recsize =>
          match calc_product_vector h varname with
          | none => .error .indexError
          | some pv0 =>
            let pv1 := (pv0 ++ [1]).drop 1
            let pv := if recvar then pv1.drop 1 else pv1
            .ok ⟨varinfo, dtypesize, recvar, recsize, pv⟩

/-- The offset computation of `read_2ddata` for a single cell (lines
503-526): build `coord`, drop its record coordinate when flagged, take
the product with the (already shifted) product vector, scale by the
element byte size, add `begin`, and add `recnum * recsize` when flagged. -/
def compute_offset (h : Header) (s : Setup) (idx : String → Option Nat) :
    Except PyErr Nat :=
  match coord_of h s.varinfo.dimids idx with
  | .error e => .error e
  | .ok coord =>
    let coord_mod := if s.recvar then coord.drop 1 else coord
    let elem := dot coord_mod s.pv
    let offset := elem * s.dtypesize + s.varinfo.begin
    .ok (if s.recvar then offset + coord.headD 0 * s.recsize else offset)

/-- Lines 545-556 of `read_2ddata`: multiply by `scale_factor` when that
attribute is present, then add `add_offset` when present. -/
def apply_transforms (h : Header) (varname : String) (value : Rat) : Rat :=
  let value :=
    match get_varattr h varname "scale_factor" with
    | some attr => value * attr
    | none => value
  match get_varattr h varname "add_offset" with
  | some attr => value + attr
  | none => value

/-- One cell of `read_2ddata` (lines 503-556): compute the offset, dispatch
on the element type to read the raw value — there is no `NC_BYTE` branch,
so for it the local `value` is never bound and the later use raises
`NameError` — then apply the optional transforms. -/
def readCell (h : Header) (fetch : Dtype → Nat → Rat) (varname : String)
    (s : Setup) (idx : String → Option Nat) : Except PyErr Rat :=
  match compute_offset h s idx with
  | .error e => .error e
  | .ok offset =>
    let value? : Option Rat :=
      match s.varinfo.nc_type with
      | .NC_CHAR => some (fetch .NC_CHAR offset)
      | .NC_SHORT => some (fetch .NC_SHORT offset)
      | .NC_INT => some (fetch .NC_INT offset)
      | .NC_FLOAT => some (fetch .NC_FLOAT offset)
      | .NC_DOUBLE => some (fetch .NC_DOUBLE offset)
      | .NC_BYTE => none
    match value? with
    | none => .error .nameError
    | some value => .ok (apply_transforms h varname value)

/-- Effectful map over a list of loop indices, mirroring the per-iteration
`append` of the grid loops (an exception aborts the whole call). -/
def mapExcept (f : α → Except PyErr β) : List α → Except PyErr (List β)
  | [] => .ok []
  | a :: l =>
    match f a with
    | .error e => .error e
    | .ok b =>
      match mapExcept f l with
      | .error e => .error e
      | .ok bs => .ok (b :: bs)

/-- `read_2ddata` (lines 449-565): the setup of lines 456-482, the dimension
length resolution of lines 494-495 (a length of 0 is replaced by the record
count), and the row/column loops over `readCell`. -/
def read_2ddata (h : Header) (fetch : Dtype → Nat → Rat)
    (varname xdim ydim : String) (extradims : List (String × Nat)) :
    Except PyErr (List (List Rat)) :=
  match read_setup h varname xdim ydim with
  | .error e => .error e
  | .ok s =>
    match get_diminfo h xdim with
    | none => .error .typeError
    | some xdiminfo =>
      match get_diminfo h ydim with
      | none => .error .typeError
      | some ydiminfo =>
        let xdimlength := if xdiminfo.dim_length = 0 then h.numrecs else xdiminfo.dim_length
        let ydimlength := if ydiminfo.dim_length = 0 then h.numrecs else ydiminfo.dim_length
        mapExcept
          (fun y => mapExcept
            (fun x => readCell h fetch varname s (indexdict xdim ydim x y extradims))
            (List.range xdimlength))
          (List.range ydimlength)

/-- The byte offset `read_2ddata` computes for one cell, as a standalone
pipeline: the setup of lines 456-482 followed by the per-cell offset
arithmetic of lines 503-526. -/
def read_2ddata_offset (h : Header) (varname xdim ydim : String)
    (idx : String → Option Nat) : Except PyErr Nat :=
  match read_setup h varname xdim ydim with
  | .error e => .error e
  | .ok s => compute_offset h s idx

/-!
Spec-side definitions.  Each definition below follows the wording of the
specification (spec.md) for a claim that compares the code against the
spec's formula; they are clearly named `spec_*` and are never used inside
the code embedding above.
-/

/-- Exclusive suffix products of the dimension lengths, the spec's product
vector `P` of section 4.5: `P[k-1] = 1` and `P[i] = P[i+1] * L_(i+1)`. -/
def specP : List Nat → List Nat
  | [] => []
  | _ :: rest => rest.prod :: specP rest

/-- Inclusive suffix products: the shape of the list the source's
`calc_product_vector` actually builds (before any record zeroing). -/
def inclProds : List Nat → List Nat
  | [] => []
  | l :: rest => (l :: rest).prod :: inclProds rest

/-- The data-model record-variable classification in the words of the spec
(section 3): the first referenced dimension is the unlimited (length-0)
dimension and the variable's own name does not equal that dimension's
name. -/
def spec_is_record_variable (h : Header) (v : Var) : Bool :=
  match v.dimids.head? with
  | none => false
  | some dimid =>
    match h.dim_list.get? dimid with
    | none => false
    | some diminfo => diminfo.dim_length == 0 && !(v.name == diminfo.name)

/-- The spec's offset formula (section 4.5) for claim C1, on the logical
index tuple `idx` in declared dimension order: `data_start + elem_offset *
element_byte_size`, where `elem_offset` sums `idx_i * P[i]` over the
non-record axes, plus `idx_0 * R` exactly when the variable is a record
variable of the data model. -/
def spec_offset_C1 (h : Header) (varname : String) (idx : List Nat) : Option Nat :=
  match get_varinfo h varname with
  | none => none
  | some v =>
    match dim_lengths_of h v.dimids with
    | none => none
    | some lens =>
      let P := specP lens
      if spec_is_record_variable h v then
        match calc_recsize h with
        | none => none
        | some R =>
          some (v.begin + dot (idx.drop 1) (P.drop 1) * dtype_sizes v.nc_type
                + idx.headD 0 * R)
      else
        some (v.begin + dot idx P * dtype_sizes v.nc_type)

/-- A record variable's per-record element count in the words of claim C4:
the product of its dimension lengths over the non-record axes. -/
def per_record_count (h : Header) (v : Var) : Option Nat :=
  match dim_lengths_of h v.dimids with
  | none => none
  | some lens => some (lens.drop 1).prod

/-- The record size in the words of claim C4: the sum, over every record
variable, of its per-record element count times its element byte size,
rounded up to a 4-byte boundary. -/
def spec_recsize_C4 (h : Header) : Option Nat :=
  match optionMapM
      (fun v =>
        match per_record_count h v with
        | none => none
        | some c => some (round_nearest_4byte_boundary (c * dtype_sizes v.nc_type)))
      (get_record_variables h) with
  | none => none
  | some sizes => some sizes.sum

/-- The fixed punctuation set listed by the spec's name grammar (section
4.2) for claim C7 — it does not contain the space character. -/
def spec_punct_C7 : List Nat :=
  [33, 34, 35, 36, 37, 38, 39, 40, 41, 42, 44, 58, 59, 60, 61, 62, 63,
   91, 92, 93, 94, 123, 124, 125, 126]

/-- A subsequent name character in the words of the spec: alphanumeric, or
one of `_ . @ + -`, or one of the listed punctuation set. -/
def spec_idn_C7 (c : Nat) : Bool :=
  check_alphanumeric c || special1.contains c || spec_punct_C7.contains c

/-- Name acceptance in the words of claim C7. -/
def spec_valid_name_C7 (name : List Nat) : Bool :=
  match name with
  | [] => false
  | c :: rest => (check_alphanumeric c || c == 95) && rest.all spec_idn_C7

/-- A subsequent name character per the amended C7 grammar: the spec's
grammar extended with the space character. -/
def spec_idn_space_C7 (c : Nat) : Bool :=
  spec_idn_C7 c || c == 32

/-- Name acceptance per the amended C7 grammar. -/
def spec_valid_name_space_C7 (name : List Nat) : Bool :=
  match name with
  | [] => false
  | c :: rest => (check_alphanumeric c || c == 95) && rest.all spec_idn_space_C7

/-!
Concrete headers and fetch oracles used by counterexamples and witnesses.
-/

/-- A fetch oracle returning 0 everywhere. -/
def fetch0 : Dtype → Nat → Rat := fun _ _ => 0

/-- A fetch oracle returning the byte offset itself, to make computed
offsets observable in a returned grid. -/
def fetchOffset : Dtype → Nat → Rat := fun _ offset => (offset : Rat)

/-- A fetch oracle returning the raw value 10 everywhere (claim C8). -/
def fetch10 : Dtype → Nat → Rat := fun _ _ => 10

/-- Header for claim C1: three fixed dimensions `a`, `b`, `c` of length 2
(no unlimited dimension, hence no record variables) and one `NC_INT`
variable `v` over `(a, b, c)` whose data starts at byte 100. -/
def hdr1 : Header :=
  ⟨0,
   [⟨"a", 2⟩, ⟨"b", 2⟩, ⟨"c", 2⟩],
   [⟨"v", [0, 1, 2], [], .NC_INT, 32, 100⟩]⟩

/-- The variable `v` of `hdr1`. -/
def hdr1_v : Var := ⟨"v", [0, 1, 2], [], .NC_INT, 32, 100⟩

/-- Header for claim C2: an unlimited dimension `time`, a dimension `lat`
of length 2, and a single two-dimensional variable named `time` whose
first dim reference is the unlimited dimension. -/
def hdr2 : Header :=
  ⟨3,
   [⟨"time", 0⟩, ⟨"lat", 2⟩],
   [⟨"time", [0, 1], [], .NC_INT, 8, 0⟩]⟩

/-- The variable `time` of `hdr2`. -/
def hdr2_vtime : Var := ⟨"time", [0, 1], [], .NC_INT, 8, 0⟩

/-- Header for claim C3: dimensions of lengths 2, 3, 4 and a fixed variable
`w` over all three. -/
def hdr3 : Header :=
  ⟨0,
   [⟨"a", 2⟩, ⟨"b", 3⟩, ⟨"c", 4⟩],
   [⟨"w", [0, 1, 2], [], .NC_INT, 96, 0⟩]⟩

/-- Header for claim C4's counterexample: one record variable `temp` whose
only dimension is the unlimited dimension. -/
def hdr4 : Header :=
  ⟨3,
   [⟨"time", 0⟩],
   [⟨"temp", [0], [], .NC_BYTE, 4, 0⟩]⟩

/-- Header for claim C4's witness: one record variable `temp` over
`(time, lat)` with `lat` of length 2 and 2-byte elements. -/
def hdr4b : Header :=
  ⟨3,
   [⟨"time", 0⟩, ⟨"lat", 2⟩],
   [⟨"temp", [0, 1], [], .NC_SHORT, 4, 0⟩]⟩

/-- Header for claim C5's counterexample: dimensions `x`, `y`, `z`; the
variable `g` uses only `(x, y)`, so extracting with `xdim = "z"` asks for
a spatial dimension the variable does not have. -/
def hdr5 : Header :=
  ⟨0,
   [⟨"x", 3⟩, ⟨"y", 2⟩, ⟨"z", 2⟩],
   [⟨"g", [0, 1], [], .NC_INT, 24, 0⟩]⟩

/-- Header for claim C5's witness: variable `v` over `(t, x, y)`; calling
without fixing `t` leaves a dimension uncovered. -/
def hdr5w : Header :=
  ⟨0,
   [⟨"t", 3⟩, ⟨"x", 2⟩, ⟨"y", 2⟩],
   [⟨"v", [0, 1, 2], [], .NC_INT, 48, 0⟩]⟩

/-- Header for claim C8: a 1x1 `NC_INT` variable `v` carrying
`scale_factor = 1/2` and `add_offset = 100`, and a variable `plain`
carrying no attributes. -/
def hdr8 : Header :=
  ⟨0,
   [⟨"x", 1⟩, ⟨"y", 1⟩],
   [⟨"v", [0, 1], [⟨"scale_factor", (1 : Rat) / 2⟩, ⟨"add_offset", 100⟩], .NC_INT, 4, 0⟩,
    ⟨"plain", [0, 1], [], .NC_INT, 4, 4⟩]⟩

/-- Header for claim C10: a 1x1 `NC_BYTE` variable `b`. -/
def hdr10 : Header :=
  ⟨0,
   [⟨"x", 1⟩, ⟨"y", 1⟩],
   [⟨"b", [0, 1], [], .NC_BYTE, 4, 0⟩]⟩

/-!
Helper lemmas shared by the claim theorems.
-/

/-- The running-product loop distributes over list append, carrying the
accumulated product into the second half. -/
theorem cumulProds_append (a : Nat) (l1 l2 : List Nat) :
    cumulProds a (l1 ++ l2) = cumulProds a l1 ++ cumulProds (a * l1.prod) l2 := by
  induction l1 generalizing a with
  | nil => simp [cumulProds]
  | cons x xs ih =>
    simp only [List.cons_append, cumulProds, List.prod_cons, List.append_eq]
    rw [ih (a * x), mul_assoc]

/-- Reversing the running products of the reversed lengths yields the
inclusive suffix products. -/
theorem reverse_cumulProds (l : List Nat) :
    (cumulProds 1 l.reverse).reverse = inclProds l := by
  induction l with
  | nil => rfl
  | cons x xs ih =>
    rw [List.reverse_cons, cumulProds_append]
    simp only [cumulProds, List.reverse_append, List.reverse_cons, List.reverse_nil,
      List.nil_append, List.singleton_append, one_mul, List.prod_reverse]
    rw [ih, inclProds, List.prod_cons, mul_comm]

/-- Appending a trailing 1 to the inclusive suffix products gives the full
product followed by the spec's exclusive product vector. -/
theorem inclProds_append_one (l : List Nat) :
    inclProds l ++ [1] = l.prod :: specP l := by
  induction l with
  | nil => simp [inclProds, specP]
  | cons x xs ih =>
    simp only [inclProds, specP, List.cons_append, ih]

/-- Dropping the head after appending ignores an overwrite of entry 0. -/
theorem set_zero_append_drop (l : List Nat) (b : Nat) :
    ((l.set 0 b) ++ [1]).drop 1 = (l ++ [1]).drop 1 := by
  cases l <;> rfl

/-- The head-dropped, 1-appended inclusive suffix products are exactly the
spec's exclusive product vector. -/
theorem inclProds_shift (l : List Nat) :
    (inclProds l ++ [1]).drop 1 = specP l := by
  rw [inclProds_append_one]
  rfl

/-- Folding `Nat.max` from an arbitrary seed equals maxing the seed with
the fold from 0. -/
theorem foldl_max_eq (a : Nat) (l : List Nat) :
    l.foldl Nat.max a = Nat.max a (l.foldl Nat.max 0) := by
  induction l generalizing a with
  | nil => simp
  | cons x xs ih =>
    simp only [List.foldl_cons]
    rw [ih (Nat.max a x), ih (Nat.max 0 x)]
    simp only [Nat.max_def]
    split_ifs <;> omega

/-- Over positive lengths, the maximum of the inclusive suffix products is
the full product (attained at the head). -/
theorem foldl_max_inclProds (l : List Nat) (hne : l ≠ []) (hpos : ∀ x ∈ l, 0 < x) :
    (inclProds l).foldl Nat.max 0 = l.prod := by
  induction l with
  | nil => exact absurd rfl hne
  | cons x xs ih =>
    cases xs with
    | nil =>
      simp only [inclProds, List.foldl_cons, List.foldl_nil, Nat.max_def]
      split_ifs <;> omega
    | cons y ys =>
      have hxs : (inclProds (y :: ys)).foldl Nat.max 0 = (y :: ys).prod := by
        refine ih (by simp) ?_
        intro z hz
        exact hpos z (List.mem_cons_of_mem x hz)
      have hx : 0 < x := hpos x (List.mem_cons_self x _)
      have hle : (y :: ys).prod ≤ (x :: y :: ys).prod := by
        rw [List.prod_cons]
        exact Nat.le_mul_of_pos_left _ hx
      rw [show inclProds (x :: y :: ys)
            = (x :: y :: ys).prod :: inclProds (y :: ys) from rfl]
      rw [List.foldl_cons, foldl_max_eq, hxs]
      simp only [Nat.max_def]
      split_ifs <;> omega

/-- Rounding up to a 4-byte boundary yields a multiple of 4. -/
theorem round4_dvd (n : Nat) : 4 ∣ round_nearest_4byte_boundary n := by
  unfold round_nearest_4byte_boundary padding_to_nearest_4byte_boundary
  by_cases h : n % 4 = 0 <;> simp [h] <;> omega

/-- Rounding a multiple of 4 is the identity. -/
theorem round4_of_dvd (n : Nat) (h : 4 ∣ n) : round_nearest_4byte_boundary n = n := by
  have h0 : n % 4 = 0 := by omega
  unfold round_nearest_4byte_boundary padding_to_nearest_4byte_boundary
  simp [h0]

/-- Pointwise equal functions give equal effectful maps. -/
theorem optionMapM_congr {α β : Type} {f g : α → Option β} {l : List α}
    (h : ∀ a ∈ l, f a = g a) : optionMapM f l = optionMapM g l := by
  induction l with
  | nil => rfl
  | cons a l ih =>
    simp only [optionMapM, h a (List.mem_cons_self a l),
      ih (fun x hx => h x (List.mem_cons_of_mem a hx))]

/-- Every element produced by a successful effectful map satisfies any
property enjoyed by all the mapped results. -/
theorem optionMapM_forall {α β : Type} {f : α → Option β} {l : List α} {bs : List β}
    (P : β → Prop) (hf : ∀ a ∈ l, ∀ b, f a = some b → P b)
    (h : optionMapM f l = some bs) : ∀ b ∈ bs, P b := by
  induction l generalizing bs with
  | nil =>
    simp only [optionMapM] at h
    cases h
    intro b hb
    cases hb
  | cons a l ih =>
    simp only [optionMapM] at h
    cases hfa : f a with
    | none => rw [hfa] at h; cases h
    | some b0 =>
      rw [hfa] at h
      cases hrest : optionMapM f l with
      | none => rw [hrest] at h; cases h
      | some bs0 =>
        rw [hrest] at h
        cases h
        intro b hb
        cases hb with
        | head => exact hf a (List.mem_cons_self a l) b0 hfa
        | tail _ hb =>
          exact ih (fun x hx => hf x (List.mem_cons_of_mem a hx)) hrest b hb

/-- The padding loop consumes exactly `p` bytes and succeeds exactly when
they are all zero. -/
theorem consume_padding_eq (p : Nat) (s : List Nat) :
    consume_padding p s =
      if s.take p = List.replicate p 0 then .ok (s.drop p)
      else .error .paddingError := by
  induction p generalizing s with
  | zero => simp [consume_padding]
  | succ n ih =>
    cases s with
    | nil => simp [consume_padding, List.replicate_succ]
    | cons b t =>
      simp only [consume_padding, List.take_succ_cons, List.replicate_succ,
        List.drop_succ_cons]
      by_cases hb : b = 0
      · subst hb
        rw [ih]
        by_cases ht : t.take n = List.replicate n 0 <;> simp [ht]
      · rw [if_neg hb, if_neg]
        intro hcontra
        exact hb (List.cons_eq_cons.mp hcontra).1

/-- When every dim reference resolves but some resolved dimension's name is
missing from the index map, the coordinate comprehension raises `KeyError`. -/
theorem coord_of_keyError (h : Header) (dimids : List Nat)
    (idx : String → Option Nat)
    (hres : ∀ d ∈ dimids, (h.dim_list.get? d).isSome)
    (hmiss : ∃ d ∈ dimids, ∃ dim, h.dim_list.get? d = some dim ∧ idx dim.name = none) :
    coord_of h dimids idx = .error .keyError := by
  induction dimids with
  | nil =>
    obtain ⟨d, hd, _⟩ := hmiss
    cases hd
  | cons d0 rest ih =>
    obtain ⟨dim0, hdim0⟩ := Option.isSome_iff_exists.mp (hres d0 (List.mem_cons_self _ _))
    simp only [coord_of, hdim0]
    obtain ⟨d, hd, dim, hdim, hidx⟩ := hmiss
    cases hd with
    | head =>
      rw [hdim0] at hdim
      injection hdim with hdd
      subst hdd
      rw [hidx]
    | tail _ hd =>
      cases hidx0 : idx dim0.name with
      | none => rfl
      | some i =>
        rw [ih (fun x hx => hres x (List.mem_cons_of_mem _ hx))
          ⟨d, hd, dim, hdim, hidx⟩]

/-- When every dim reference resolves and every resolved dimension's name is
present in the index map, the coordinate comprehension succeeds. -/
theorem coord_of_isOk (h : Header) (dimids : List Nat)
    (idx : String → Option Nat)
    (hres : ∀ d ∈ dimids, ∃ dim, h.dim_list.get? d = some dim ∧ (idx dim.name).isSome) :
    ∃ c, coord_of h dimids idx = .ok c := by
  induction dimids with
  | nil => exact ⟨[], rfl⟩
  | cons d0 rest ih =>
    obtain ⟨dim0, hdim0, hsome⟩ := hres d0 (List.mem_cons_self _ _)
    obtain ⟨i, hi⟩ := Option.isSome_iff_exists.mp hsome
    obtain ⟨c, hc⟩ := ih (fun x hx => hres x (List.mem_cons_of_mem _ hx))
    exact ⟨i :: c, by simp only [coord_of, hdim0, hi, hc]⟩

/-- Characterization of `calc_product_vector` on a resolvable variable: it
returns the inclusive suffix products of the dimension lengths, with entry
0 forced to 0 exactly when the first dimension has length 0. -/
theorem calc_product_vector_eq (h : Header) (varname : String) (v : Var)
    (d0 : Nat) (ds : List Nat) (fd : Dim) (lens : List Nat)
    (hv : get_varinfo h varname = some v)
    (hd : v.dimids = d0 :: ds)
    (hfd : h.dim_list.get? d0 = some fd)
    (hlens : dim_lengths_of h v.dimids = some lens) :
    calc_product_vector h varname =
      some (if fd.dim_length = 0 then (inclProds lens).set 0 0 else inclProds lens) := by
  have hlens' : dim_lengths_of h (d0 :: ds) = some lens := by
    rw [← hd]
    exact hlens
  unfold calc_product_vector
  simp only [hv, hd, hlens', List.head?_cons, hfd]
  rw [reverse_cumulProds]
  split_ifs <;> rfl

/-- Inverting one step of the dimension-length resolution. -/
theorem dim_lengths_cons (h : Header) (d : Nat) (ds : List Nat) (L : Nat)
    (ls : List Nat)
    (hl : dim_lengths_of h (d :: ds) = some (L :: ls)) :
    ∃ fd, h.dim_list.get? d = some fd ∧ fd.dim_length = L ∧
      dim_lengths_of h ds = some ls := by
  unfold dim_lengths_of optionMapM at hl
  cases hg : h.dim_list.get? d with
  | none => rw [hg] at hl; cases hl
  | some fd =>
    rw [hg] at hl
    simp only [Option.map_some'] at hl
    cases hrest : optionMapM (fun dimid => (h.dim_list.get? dimid).map Dim.dim_length) ds with
    | none => rw [hrest] at hl; cases hl
    | some bs =>
      rw [hrest] at hl
      simp only [Option.some.injEq, List.cons.injEq] at hl
      exact ⟨fd, rfl, hl.1, by unfold dim_lengths_of; rw [hrest, hl.2]⟩

/-- `calc_vsize` of a record variable whose trailing dimensions are present
and positive: the per-record element count times the element size, rounded
up to a 4-byte boundary. -/
theorem calc_vsize_record (h : Header) (v : Var) (ls : List Nat)
    (hgv : get_varinfo h v.name = some v)
    (hlens : dim_lengths_of h v.dimids = some (0 :: ls))
    (hne : ls ≠ []) (hpos : ∀ x ∈ ls, 0 < x) :
    calc_vsize h v.name
      = some (round_nearest_4byte_boundary (ls.prod * dtype_sizes v.nc_type)) := by
  cases hdids : v.dimids with
  | nil =>
    rw [hdids] at hlens
    cases hlens
  | cons d ds =>
    rw [hdids] at hlens
    obtain ⟨fd, hfd, hfd0, _⟩ := dim_lengths_cons h d ds 0 ls hlens
    have hpv : calc_product_vector h v.name
        = some ((inclProds (0 :: ls)).set 0 0) := by
      rw [calc_product_vector_eq h v.name v d ds fd (0 :: ls) hgv hdids hfd
        (by rw [hdids]; exact hlens)]
      rw [if_pos hfd0]
    have hmax : List.foldl Nat.max 0 ((inclProds (0 :: ls)).set 0 0) = ls.prod := by
      rw [show inclProds (0 :: ls) = (0 :: ls).prod :: inclProds ls from rfl]
      rw [List.prod_cons, Nat.zero_mul, List.set_cons_zero]
      rw [List.foldl_cons, show Nat.max 0 0 = 0 from rfl]
      exact foldl_max_inclProds ls hne hpos
    unfold calc_vsize
    rw [hpv, hgv]
    show some (round_nearest_4byte_boundary
      (List.foldl Nat.max 0 ((inclProds (0 :: ls)).set 0 0) * dtype_sizes v.nc_type)) = _
    rw [hmax]

set_option maxRecDepth 8192 in
/-- The code's accepted subsequent-name characters agree, byte for byte,
with the spec's grammar extended with the space character. -/
theorem check_idn_eq_space : ∀ c, c < 256 → check_idn c = spec_idn_space_C7 c := by
  decide

/-- List-level version of `check_idn_eq_space`. -/
theorem all_check_idn_eq (l : List Nat) :
    (∀ c ∈ l, c < 256) → l.all check_idn = l.all spec_idn_space_C7 := by
  induction l with
  | nil => intro _; rfl
  | cons x xs ih =>
    intro hl
    simp only [List.all_cons]
    rw [check_idn_eq_space x (hl x (List.mem_cons_self _ _)),
      ih (fun z hz => hl z (List.mem_cons_of_mem _ hz))]

/-!
Claim theorems.
-/

/-- C1: evaluation of the code at the failing input.  For the header `hdr1`
(no record variables at all; `v` is a plain fixed variable over `a, b, c`,
each of length 2, data starting at byte 100, 4-byte `NC_INT` elements) the
call `read_2ddata("v", xdim = "b", ydim = "c", a = 1)` computes byte offset
100 at cell (x = 0, y = 0), because line 469 overwrites the record-variable
test of line 465 with `firstdim not in (xdim, ydim)`: the index along `a`
is dropped and a zero record term added.  The spec's formula gives
`100 + (1*4 + 0*2 + 0*1) * 4 = 116`.  The full extracted grid of offsets is
`[[100, 108], [104, 112]]` instead of the claimed `[[116, 124], [120, 128]]`. -/
theorem C1_offset_record_term_bug :
    read_2ddata_offset hdr1 "v" "b" "c" (indexdict "b" "c" 0 0 [("a", 1)]) = .ok 100 ∧
    spec_offset_C1 hdr1 "v" [1, 0, 0] = some 116 ∧
    spec_is_record_variable hdr1 hdr1_v = false ∧
    get_record_variables hdr1 = [] ∧
    read_2ddata hdr1 fetchOffset "v" "b" "c" [("a", 1)]
      = .ok [[((100 : Nat) : Rat), ((108 : Nat) : Rat)],
             [((104 : Nat) : Rat), ((112 : Nat) : Rat)]] := by
  exact ⟨rfl, rfl, rfl, rfl, rfl⟩

/-- C2 counterexample: in `hdr2` the two-dimensional variable named `time`,
whose first dim reference is the unlimited dimension `time`, is classified
by the code as a record variable — the claim says a variable named like
the unlimited dimension never is. -/
theorem C2_same_name_counterexample :
    hdr2_vtime ∈ get_record_variables hdr2 ∧
    hdr2_vtime.name = "time" ∧
    hdr2_vtime.dimids = [0, 1] ∧
    hdr2.dim_list.get? 0 = some ⟨"time", 0⟩ ∧
    spec_is_record_variable hdr2 hdr2_vtime = false := by
  exact ⟨by decide, rfl, rfl, rfl, rfl⟩

/-- C2 (amended): a variable of the parsed header is classified as a record
variable iff its first referenced dimension has length 0 and no
*coordinate variable* (single-dimension variable named like its dimension)
carries the variable's name; the variable's own name being equal to the
unlimited dimension's name is not, by itself, an exclusion. -/
theorem C2_record_classification_amended (h : Header) (v : Var) (d0 : Nat)
    (ds : List Nat) (dim : Dim)
    (hv : v ∈ h.var_list) (hd : v.dimids = d0 :: ds)
    (hdim : h.dim_list.get? d0 = some dim) :
    v ∈ get_record_variables h ↔
      (dim.dim_length = 0 ∧ ∀ c ∈ get_coordinate_variables h, c.name ≠ v.name) := by
  unfold get_record_variables
  rw [List.mem_filter]
  simp only [hv, true_and]
  unfold is_record_variable
  rw [hd]
  simp only [List.head?_cons, hdim]
  simp only [Bool.and_eq_true, beq_iff_eq, Bool.not_eq_true']
  constructor
  · rintro ⟨h0, hnc⟩
    refine ⟨h0, ?_⟩
    intro c hc hceq
    have : v.name ∈ (get_coordinate_variables h).map Var.name :=
      List.mem_map.mpr ⟨c, hc, hceq⟩
    rw [← List.elem_iff] at this
    rw [show ((get_coordinate_variables h).map Var.name).contains v.name
          = ((get_coordinate_variables h).map Var.name).elem v.name from rfl] at hnc
    rw [this] at hnc
    cases hnc
  · rintro ⟨h0, hnc⟩
    refine ⟨h0, ?_⟩
    rw [show ((get_coordinate_variables h).map Var.name).contains v.name
          = ((get_coordinate_variables h).map Var.name).elem v.name from rfl]
    cases helem : ((get_coordinate_variables h).map Var.name).elem v.name
    · rfl
    · exfalso
      obtain ⟨c, hc, hceq⟩ := List.mem_map.mp (List.elem_iff.mp helem)
      exact hnc c hc hceq

/-- C2 witness: the amended classification applied to `hdr2`. -/
theorem C2_record_classification_witness :
    hdr2_vtime ∈ get_record_variables hdr2 ↔
      ((⟨"time", 0⟩ : Dim).dim_length = 0 ∧
        ∀ c ∈ get_coordinate_variables hdr2, c.name ≠ hdr2_vtime.name) :=
  C2_record_classification_amended hdr2 hdr2_vtime 0 [1] ⟨"time", 0⟩
    (by decide) rfl rfl

/-- C3 counterexample: for dimension lengths `[2, 3, 4]` the source's
`calc_product_vector` returns the inclusive suffix products `[24, 12, 4]`,
not the claimed `[12, 4, 1]`. -/
theorem C3_product_vector_counterexample :
    calc_product_vector hdr3 "w" = some [24, 12, 4] ∧
    ([24, 12, 4] : List Nat) ≠ [12, 4, 1] := by
  exact ⟨rfl, by decide⟩

/-- C3 (amended): for a non-record variable, `calc_product_vector` returns
the inclusive suffix products of the dimension lengths (`[24, 12, 4]` for
`[2, 3, 4]`); the spec's exclusive vector `P` (with `P[k-1] = 1` and
`P[i] = P[i+1] * L_(i+1)`, `[12, 4, 1]` for `[2, 3, 4]`) is what
`read_2ddata` derives from it by appending a 1 and dropping the head. -/
theorem C3_product_vector_amended (h : Header) (varname : String) (v : Var)
    (d0 : Nat) (ds : List Nat) (fd : Dim) (lens : List Nat)
    (hv : get_varinfo h varname = some v) (hd : v.dimids = d0 :: ds)
    (hfd : h.dim_list.get? d0 = some fd) (hnz : fd.dim_length ≠ 0)
    (hlens : dim_lengths_of h v.dimids = some lens) :
    calc_product_vector h varname = some (inclProds lens) ∧
      (inclProds lens ++ [1]).drop 1 = specP lens := by
  refine ⟨?_, inclProds_shift lens⟩
  rw [calc_product_vector_eq h varname v d0 ds fd lens hv hd hfd hlens]
  rw [if_neg hnz]

/-- C3 witness: the amended statement applied to `hdr3`, where it evaluates
to `some [24, 12, 4]` and `[12, 4, 1]`. -/
theorem C3_product_vector_witness :
    calc_product_vector hdr3 "w" = some (inclProds [2, 3, 4]) ∧
      (inclProds [2, 3, 4] ++ [1]).drop 1 = specP [2, 3, 4] :=
  C3_product_vector_amended hdr3 "w" ⟨"w", [0, 1, 2], [], .NC_INT, 96, 0⟩
    0 [1, 2] ⟨"a", 2⟩ [2, 3, 4] rfl rfl rfl (by decide) rfl

/-- C4 counterexample: in `hdr4` the single record variable `temp` has the
unlimited dimension as its only dimension; its per-record element count is
the empty product 1, so the claim's record size is `round4(1 * 1) = 4`,
but the code computes `max([0]) * 1 = 0` and a record size of 0. -/
theorem C4_recsize_counterexample :
    calc_recsize hdr4 = some 0 ∧
    spec_recsize_C4 hdr4 = some 4 ∧
    get_record_variables hdr4 ≠ [] := by
  exact ⟨rfl, rfl, by decide⟩

/-- C4 (amended): when every record variable resolves to dimension lengths
`0 :: ls` with `ls` non-empty and positive (i.e. has at least one
non-record axis, and no further zero-length axis), the record size computed
by `calc_recsize` equals the sum over the record variables of the
per-record element count times the element byte size, each summand rounded
up to a 4-byte boundary (the outer rounding of the sum is then a no-op); a
record variable with no non-record axis instead contributes 0, not
`round4(element size)`. -/
theorem C4_recsize_amended (h : Header)
    (hwf : ∀ v ∈ get_record_variables h,
      get_varinfo h v.name = some v ∧
      ∃ ls, dim_lengths_of h v.dimids = some (0 :: ls) ∧ ls ≠ [] ∧
        ∀ x ∈ ls, 0 < x) :
    calc_recsize h = spec_recsize_C4 h := by
  unfold calc_recsize spec_recsize_C4
  have hcong : optionMapM (fun varinfo => calc_vsize h varinfo.name)
        (get_record_variables h)
      = optionMapM
          (fun v =>
            match per_record_count h v with
            | none => none
            | some c => some (round_nearest_4byte_boundary (c * dtype_sizes v.nc_type)))
          (get_record_variables h) := by
    apply optionMapM_congr
    intro v hv
    obtain ⟨hgv, ls, hlens, hne, hpos⟩ := hwf v hv
    rw [calc_vsize_record h v ls hgv hlens hne hpos]
    unfold per_record_count
    rw [hlens]
    rfl
  rw [hcong]
  cases hmapped : optionMapM
      (fun v =>
        match per_record_count h v with
        | none => none
        | some c => some (round_nearest_4byte_boundary (c * dtype_sizes v.nc_type)))
      (get_record_variables h) with
  | none => rfl
  | some sizes =>
    have hdvd : ∀ b ∈ sizes, 4 ∣ b := by
      refine optionMapM_forall (fun b => 4 ∣ b) ?_ hmapped
      intro v _ b hb
      cases hpc : per_record_count h v with
      | none => rw [hpc] at hb; cases hb
      | some c =>
        rw [hpc] at hb
        cases hb
        exact round4_dvd _
    show some (round_nearest_4byte_boundary sizes.sum) = some sizes.sum
    rw [round4_of_dvd sizes.sum (List.dvd_sum hdvd)]

/-- C4 witness: the amended statement applied to `hdr4b`, whose single
record variable `temp` has per-record element count 2 and 2-byte elements,
so both sides evaluate to `some 4`. -/
theorem C4_recsize_witness : calc_recsize hdr4b = spec_recsize_C4 hdr4b := by
  apply C4_recsize_amended
  intro v hv
  have hveq : v = ⟨"temp", [0, 1], [], .NC_SHORT, 4, 0⟩ := by
    have hlist : get_record_variables hdr4b
        = [⟨"temp", [0, 1], [], .NC_SHORT, 4, 0⟩] := rfl
    rw [hlist] at hv
    simpa using hv
  subst hveq
  exact ⟨rfl, [2], rfl, by decide, by decide⟩

/-- C5 counterexample: in `hdr5` the variable `g` has dimensions `x, y`
only, yet `read_2ddata("g", xdim = "z", ydim = "y", x = 0)` — with the
requested spatial dimension `z` not among the variable's dimensions —
succeeds and returns a 2x2 grid instead of failing with a `LookupError`,
because the completeness check is left unimplemented (the TODO of line
484). -/
theorem C5_no_check_counterexample :
    read_2ddata hdr5 fetch0 "g" "z" "y" [("x", 0)]
      = .ok [[0, 0], [0, 0]] := by
  exact rfl

/-- C5 (amended): when the combined index map (`x_dim`, `y_dim` and
`fixed_indices`) leaves some dimension of the variable uncovered, the
call does fail on its first cell with a `KeyError` — which is a
`LookupError`; but a spatial dimension name that is a file dimension
outside the variable's own dimensions is not detected (see the
counterexample), and a name that is no file dimension at all raises
`TypeError` instead. -/
theorem C5_missing_index_amended (h : Header) (fetch : Dtype → Nat → Rat)
    (varname xdim ydim : String) (extradims : List (String × Nat)) (s : Setup)
    (xd yd : Dim) (mx my : Nat)
    (hs : read_setup h varname xdim ydim = .ok s)
    (hx : get_diminfo h xdim = some xd)
    (hy : get_diminfo h ydim = some yd)
    (hmx : (if xd.dim_length = 0 then h.numrecs else xd.dim_length) = mx + 1)
    (hmy : (if yd.dim_length = 0 then h.numrecs else yd.dim_length) = my + 1)
    (hres : ∀ d ∈ s.varinfo.dimids, (h.dim_list.get? d).isSome)
    (hmiss : ∃ d ∈ s.varinfo.dimids, ∃ dim, h.dim_list.get? d = some dim ∧
        lookupPairs extradims dim.name = none ∧ dim.name ≠ xdim ∧ dim.name ≠ ydim) :
    read_2ddata h fetch varname xdim ydim extradims = .error .keyError ∧
      is_lookup_error .keyError = true := by
  refine ⟨?_, rfl⟩
  obtain ⟨d, hd, dim, hdim, hlook, hnex, hney⟩ := hmiss
  have hidxnone : indexdict xdim ydim 0 0 extradims dim.name = none := by
    unfold indexdict
    rw [hlook, if_neg hney, if_neg hnex]
  have hcoord : coord_of h s.varinfo.dimids (indexdict xdim ydim 0 0 extradims)
      = .error .keyError :=
    coord_of_keyError h s.varinfo.dimids _ hres ⟨d, hd, dim, hdim, hidxnone⟩
  have hcell : readCell h fetch varname s (indexdict xdim ydim 0 0 extradims)
      = .error .keyError := by
    unfold readCell compute_offset
    rw [hcoord]
  unfold read_2ddata
  rw [hs, hx, hy]
  simp only [hmx, hmy, List.range_succ_eq_map]
  simp only [mapExcept, hcell]

/-- C5 witness: extracting `v` over `(t, x, y)` from `hdr5w` without fixing
`t` fails with `KeyError`, a `LookupError`. -/
theorem C5_missing_index_witness :
    read_2ddata hdr5w fetch0 "v" "x" "y" [] = .error .keyError ∧
      is_lookup_error .keyError = true := by
  refine C5_missing_index_amended hdr5w fetch0 "v" "x" "y" []
    ⟨⟨"v", [0, 1, 2], [], .NC_INT, 48, 0⟩, 4, true, 0, [2, 1]⟩
    ⟨"x", 2⟩ ⟨"y", 2⟩ 1 1 rfl rfl rfl rfl rfl (by decide) ?_
  exact ⟨0, by decide, ⟨"t", 3⟩, rfl, rfl, by decide, by decide⟩

/-- C6: the type-size table of the source records 2 bytes for `NC_CHAR`
(and `read_2ddata` multiplies element offsets by that table entry), while
the value read for an `NC_CHAR` cell consumes exactly 1 byte — the code
contradicts its own reading logic; the claim's value of 1 byte per char
matches the actual on-disk layout.  The other entries are 1, 2, 4, 4, 8
as the claim states. -/
theorem C6_char_size_mismatch :
    dtype_sizes .NC_CHAR = 2 ∧ value_read_bytes .NC_CHAR = some 1 ∧
    dtype_sizes .NC_BYTE = 1 ∧ dtype_sizes .NC_SHORT = 2 ∧
    dtype_sizes .NC_INT = 4 ∧ dtype_sizes .NC_FLOAT = 4 ∧
    dtype_sizes .NC_DOUBLE = 8 := by
  exact ⟨rfl, rfl, rfl, rfl, rfl, rfl, rfl⟩

/-- C7 counterexample: the two-byte name `"a "` (0x61 0x20) is accepted by
the code's validator — the space character is the first entry of the
source's "special 2" string — but the spec's punctuation set does not
contain the space, so the claim rejects it. -/
theorem C7_space_counterexample :
    validate_name [97, 32] = true ∧ spec_valid_name_C7 [97, 32] = false := by
  exact ⟨rfl, rfl⟩

/-- C7 (amended): the validator accepts a name iff its first byte is
alphanumeric or underscore and every subsequent byte is alphanumeric, one
of `_ . @ + -`, or one of the spec's punctuation set *extended with the
space character*; in particular `"@abc"` and raw control characters are
still rejected. -/
theorem C7_name_grammar_amended (name : List Nat) (hb : ∀ c ∈ name, c < 256) :
    validate_name name = spec_valid_name_space_C7 name := by
  cases name with
  | nil => rfl
  | cons c rest =>
    simp only [validate_name, spec_valid_name_space_C7, check_id1]
    rw [all_check_idn_eq rest (fun z hz => hb z (List.mem_cons_of_mem _ hz))]

/-- C7 witness: the amended grammar applied to the accepted name `"a.b-2"`. -/
theorem C7_name_grammar_witness :
    (∀ c ∈ [97, 46, 98, 45, 50], c < 256) ∧
    validate_name [97, 46, 98, 45, 50] = spec_valid_name_space_C7 [97, 46, 98, 45, 50] :=
  ⟨by decide, C7_name_grammar_amended [97, 46, 98, 45, 50] (by decide)⟩

/-- C8: the optional linear transforms are applied in the fixed order
"multiply by `scale_factor`, then add `add_offset`", each independently
and only when its attribute is present; with neither attribute the raw
value is returned unchanged. -/
theorem C8_value_transforms (h : Header) (varname : String) (value : Rat) :
    (∀ a b : Rat, get_varattr h varname "scale_factor" = some a →
        get_varattr h varname "add_offset" = some b →
        apply_transforms h varname value = value * a + b) ∧
    (∀ a : Rat, get_varattr h varname "scale_factor" = some a →
        get_varattr h varname "add_offset" = none →
        apply_transforms h varname value = value * a) ∧
    (∀ b : Rat, get_varattr h varname "scale_factor" = none →
        get_varattr h varname "add_offset" = some b →
        apply_transforms h varname value = value + b) ∧
    (get_varattr h varname "scale_factor" = none →
        get_varattr h varname "add_offset" = none →
        apply_transforms h varname value = value) := by
  unfold apply_transforms
  refine ⟨?_, ?_, ?_, ?_⟩ <;> intros <;> simp_all

/-- C8 witness: on `hdr8`, the variable `v` with `scale_factor = 1/2` and
`add_offset = 100` decodes the raw value 10 as `10 * (1/2) + 100 = 105`,
end to end through `read_2ddata`; the attribute-free variable `plain`
returns its raw value unchanged. -/
theorem C8_value_transforms_witness :
    apply_transforms hdr8 "v" 10 = 10 * ((1 : Rat) / 2) + 100 ∧
    apply_transforms hdr8 "plain" 10 = 10 ∧
    read_2ddata hdr8 fetch10 "v" "x" "y" [] = .ok [[(105 : Rat)]] ∧
    read_2ddata hdr8 fetch10 "plain" "x" "y" [] = .ok [[(10 : Rat)]] := by
  refine ⟨(C8_value_transforms hdr8 "v" 10).1 ((1 : Rat) / 2) 100 rfl rfl,
          (C8_value_transforms hdr8 "plain" 10).2.2.2 rfl rfl, ?_, ?_⟩
  · have h105 : (10 : Rat) * ((1 : Rat) / 2) + 100 = 105 := by norm_num
    calc read_2ddata hdr8 fetch10 "v" "x" "y" []
        = .ok [[(10 : Rat) * ((1 : Rat) / 2) + 100]] := rfl
      _ = .ok [[(105 : Rat)]] := by rw [h105]
  · rfl

/-- C9: when a field's byte length `size` is not a multiple of 4, the
padding reader consumes exactly `4 - size % 4` bytes and succeeds (with
exactly those bytes removed from the stream) precisely when they are all
the zero padding byte, failing with `PaddingError` otherwise. -/
theorem C9_padding_validation (size : Nat) (stream : List Nat)
    (hsz : size % 4 ≠ 0) :
    read_size_leftover_padding_header size stream =
      if stream.take (4 - size % 4) = List.replicate (4 - size % 4) 0
      then .ok (stream.drop (4 - size % 4))
      else .error .paddingError := by
  unfold read_size_leftover_padding_header
  rw [if_neg hsz]
  exact consume_padding_eq _ _

/-- C9 witness: after a 3-byte field exactly one padding byte is read, and
a padding byte of 0x01 fails with `PaddingError` — also through
`read_namestring` on the 3-character name `"abc"` followed by 0x01, so the
header parse aborts and no handle is produced. -/
theorem C9_padding_validation_witness :
    read_size_leftover_padding_header 3 [1] = .error .paddingError ∧
    read_size_leftover_padding_header 3 [0, 9, 9] = .ok [9, 9] ∧
    read_namestring 3 [97, 98, 99, 1] = .error .paddingError := by
  refine ⟨?_, ?_, rfl⟩
  · rw [C9_padding_validation 3 [1] (by decide)]
    rfl
  · rw [C9_padding_validation 3 [0, 9, 9] (by decide)]
    rfl

/-- C10: the per-cell value dispatch of `read_2ddata` has no branch for
`NC_BYTE`, so extracting any `NC_BYTE` variable fails on the first cell
with `NameError` (the local `value` is used while unbound) and never
returns a grid of decoded values. -/
theorem C10_byte_dispatch (h : Header) (fetch : Dtype → Nat → Rat)
    (varname xdim ydim : String) (extradims : List (String × Nat)) (s : Setup)
    (xd yd : Dim) (mx my : Nat)
    (hs : read_setup h varname xdim ydim = .ok s)
    (hbyte : s.varinfo.nc_type = .NC_BYTE)
    (hx : get_diminfo h xdim = some xd)
    (hy : get_diminfo h ydim = some yd)
    (hmx : (if xd.dim_length = 0 then h.numrecs else xd.dim_length) = mx + 1)
    (hmy : (if yd.dim_length = 0 then h.numrecs else yd.dim_length) = my + 1)
    (hcov : ∀ d ∈ s.varinfo.dimids, ∃ dim, h.dim_list.get? d = some dim ∧
        (indexdict xdim ydim 0 0 extradims dim.name).isSome) :
    read_2ddata h fetch varname xdim ydim extradims = .error .nameError := by
  obtain ⟨c, hc⟩ := coord_of_isOk h s.varinfo.dimids _ hcov
  have hcell : readCell h fetch varname s (indexdict xdim ydim 0 0 extradims)
      = .error .nameError := by
    unfold readCell compute_offset
    rw [hc, hbyte]
  unfold read_2ddata
  rw [hs, hx, hy]
  simp only [hmx, hmy, List.range_succ_eq_map]
  simp only [mapExcept, hcell]

/-- C10 witness: extracting the 1x1 `NC_BYTE` variable of `hdr10` fails
with `NameError`. -/
theorem C10_byte_dispatch_witness :
    read_2ddata hdr10 fetch0 "b" "x" "y" [] = .error .nameError := by
  refine C10_byte_dispatch hdr10 fetch0 "b" "x" "y" []
    ⟨⟨"b", [0, 1], [], .NC_BYTE, 4, 0⟩, 1, false, 0, [1, 1]⟩
    ⟨"x", 1⟩ ⟨"y", 1⟩ 0 0 rfl rfl rfl rfl rfl rfl ?_
  intro d hd
  rcases List.mem_cons.mp hd with h0 | hd1
  · subst h0
    exact ⟨⟨"x", 1⟩, rfl, by decide⟩
  · rcases List.mem_cons.mp hd1 with h1 | hnil
    · subst h1
      exact ⟨⟨"y", 1⟩, rfl, by decide⟩
    · cases hnil
